import Mathlib

/-!
Shallow embedding of `src/ir_collect.py` (dreenkadev/ir-toolkit), the
incident-response snapshot collector, together with proofs settling the
specification claims about it.

The host environment (subprocess results, file system, platform identity)
is modelled as a `Host` record of oracle functions; collectors are pure
functions of the `Host`.  Python code that can raise is modelled with
`Except Unit`; code that swallows exceptions (`try ... except: ...`)
is modelled by matching on the `Except` value locally.
-/

namespace IRCollect

/-! ### The subprocess layer (`IRCollector.run_command`)

`subprocess.run(cmd, shell=True, capture_output=True, text=True, timeout=30)`
either completes — returning a `CompletedProcess` carrying the exit code and
the captured stdout (there is no `check=True`, so a non-zero exit does NOT
raise) — or raises (`TimeoutExpired`, or an execution error), which the bare
`except:` of `run_command` turns into the empty string.  Captured stderr is
discarded (never read), so it is not modelled. -/

inductive CmdOutcome where
  | completed (exitCode : Nat) (stdout : String)
  | timedOut
  | execError
deriving DecidableEq

/-- `IRCollector.run_command` (src/ir_collect.py lines 50-59): returns
`result.stdout` when `subprocess.run` completes (regardless of exit code),
and `""` when it raises. -/
def run_command (o : CmdOutcome) : String :=
  match o with
  | .completed _ out => out
  | .timedOut => ""
  | .execError => ""

/-- Result of `os.stat` on a path: the modification time already rendered as
`datetime.fromtimestamp(st_mtime).isoformat()`, plus `st_size`. -/
structure FileStat where
  mtimeIso : String
  size : Int
deriving DecidableEq

/-- The host environment the script observes: platform identity strings,
the clock, and oracles for subprocess output, path existence, directory
listings, file reads and stats.  `Except.error ()` on an oracle means the
corresponding Python call raises (e.g. `PermissionError`);
`os.path.exists` itself never raises (it returns `False` instead). -/
structure Host where
  platformSystem : String
  platformRelease : String
  platformVersion : String
  machine : String
  processor : String
  hostname : String
  pythonVersion : String
  nowIso : String
  runCmd : String → CmdOutcome
  pathExists : String → Bool
  listDir : String → Except Unit (List String)
  readFileLines : String → Except Unit (List String)
  statFile : String → Except Unit FileStat

/-! ### Python string-splitting helpers -/

/-- Drop leading whitespace characters (CPython `split_whitespace` skip). -/
def dropWs : List Char → List Char
  | [] => []
  | c :: cs => if c.isWhitespace then dropWs cs else c :: cs

/-- Split off the maximal leading run of non-whitespace characters. -/
def takeField : List Char → List Char × List Char
  | [] => ([], [])
  | c :: cs =>
    if c.isWhitespace then ([], c :: cs)
    else ((c :: (takeField cs).1), (takeField cs).2)

/-- Fuel-indexed core of Python `str.split(None, maxsplit)` (CPython's
`split_whitespace`): skip leading whitespace; while splits remain, emit the
next whitespace-delimited field; once `maxsplit` splits are done, the rest of
the string (leading whitespace stripped, trailing kept) is the final field.
One unit of fuel is spent per emitted field, and every field consumes at
least one character, so `length + 1` fuel always suffices. -/
def pySplitWsMaxFuel : Nat → Nat → List Char → List String
  | 0, _, _ => []
  | _fuel + 1, m, l =>
    match dropWs l with
    | [] => []
    | c :: cs =>
      match m with
      | 0 => [String.mk (c :: cs)]
      | m' + 1 => String.mk (c :: (takeField cs).1) :: pySplitWsMaxFuel _fuel m' ((takeField cs).2)

/-- Python `s.split(None, maxsplit)`. -/
def pySplitWsMax (m : Nat) (s : String) : List String :=
  pySplitWsMaxFuel (s.length + 1) m s.data

/-- Python `s.split()` — whitespace runs as separators, no empty fields.
With `maxsplit` at least the character count the remainder branch can never
trigger, so this is the unbounded whitespace split. -/
def pySplitWs (s : String) : List String :=
  pySplitWsMaxFuel (s.length + 1) (s.length + 1) s.data

/-- Python slicing `s[:n]` (by code points). -/
def pyStrTake (n : Nat) (s : String) : String := String.mk (s.data.take n)

/-- Python `s.strip()`: whitespace removed from both ends. -/
def pyStrip (s : String) : String :=
  String.mk (dropWs (dropWs s.data.reverse).reverse)

/-- Python `s.split(sep)` for a single-character separator (the script only
splits on `':'` and `'\n'`): separators delimit fields, empty fields kept. -/
def splitOnChar (sep : Char) : List Char → List (List Char)
  | [] => [[]]
  | c :: cs =>
    match splitOnChar sep cs with
    | [] => [[c]]
    | t :: ts => if c = sep then [] :: t :: ts else (c :: t) :: ts

def pySplitOn (sep : Char) (s : String) : List String :=
  (splitOnChar sep s.data).map String.mk

/-- Python `s.startswith(pre)`. -/
def pyStartsWith (pre s : String) : Bool := pre.data.isPrefixOf s.data

/-- The ubiquitous `output.strip().split('\n')` idiom. -/
def pyLines (s : String) : List String := pySplitOn '\n' (pyStrip s)

theorem pyStrTake_length (n : Nat) (s : String) : (pyStrTake n s).length ≤ n := by
  unfold pyStrTake
  show (s.data.take n).length ≤ n
  simp [List.length_take]

/-! ### `collect_system_info` -/

/-- `IRCollector.collect_system_info` (lines 61-83): a dict of identity
strings; on Linux two further keys from external commands.  Python dict
insertion order is the list order. -/
def collect_system_info (h : Host) : List (String × String) :=
  let info := [("os", h.platformSystem), ("os_release", h.platformRelease),
    ("os_version", h.platformVersion), ("machine", h.machine),
    ("processor", h.processor), ("hostname", h.hostname),
    ("python_version", h.pythonVersion)]
  if h.platformSystem = "Linux" then
    info ++ [("uptime", pyStrip (run_command (h.runCmd "uptime -p"))),
             ("kernel", pyStrip (run_command (h.runCmd "uname -r")))]
  else info

/-! ### `collect_processes` -/

structure ProcessRec where
  user : String
  pid : String
  cpu : String
  mem : String
  command : String
deriving DecidableEq

/-- One iteration of the `ps aux` parsing loop (lines 93-103): skip empty
lines, `split(None, 10)`, require at least 11 parts, truncate the command
to 100 characters. -/
def parseProcLine (line : String) : Option ProcessRec :=
  if line ≠ "" then
    let parts := pySplitWsMax 10 line
    if parts.length ≥ 11 then
      some ⟨parts.getD 0 "", parts.getD 1 "", parts.getD 2 "", parts.getD 3 "",
            pyStrTake 100 (parts.getD 10 "")⟩
    else none
  else none

/-- `IRCollector.collect_processes` (lines 85-106): on Linux parse
`ps aux --no-headers`, then store `processes[:100]`. -/
def collect_processes (h : Host) : List ProcessRec :=
  let processes :=
    if h.platformSystem = "Linux" then
      (pyLines (run_command (h.runCmd "ps aux --no-headers"))).filterMap parseProcLine
    else []
  processes.take 100

/-! ### `collect_network` and `get_interfaces` -/

structure ConnRec where
  proto : String
  localAddr : String
  remoteAddr : String
  state : String
deriving DecidableEq

/-- The literal `ss` command the script runs (shell-side `head -100`). -/
def ssCmd : String := "ss -tunapl 2>/dev/null | head -100"

/-- One iteration of the `ss` parsing loop (lines 116-125). -/
def parseConnLine (line : String) : Option ConnRec :=
  if line ≠ "" then
    let parts := pySplitWs line
    if parts.length ≥ 5 then
      some ⟨parts.getD 0 "", parts.getD 4 "",
            if parts.length > 5 then parts.getD 5 "" else "",
            if parts.length > 1 then parts.getD 1 "" else ""⟩
    else none
  else none

/-- The connection list of `IRCollector.collect_network` (lines 108-125):
drop the header line (`[1:]`), parse the rest.  Note the only ≤100 bound is
the shell-side `head -100` inside the command string. -/
def collect_network_connections (h : Host) : List ConnRec :=
  if h.platformSystem = "Linux" then
    ((pyLines (run_command (h.runCmd ssCmd))).drop 1).filterMap parseConnLine
  else []

/-- An interface dict under construction: Python's `current` dict, whose
`name`/`ipv4` keys are each present or absent. -/
structure IfaceRec where
  name? : Option String
  ipv4? : Option String
deriving DecidableEq

/-- Python truthiness of the `current` dict (`if current:`). -/
def ifaceTruthy (r : IfaceRec) : Bool := r.name?.isSome || r.ipv4?.isSome

def emptyIface : IfaceRec := ⟨none, none⟩

/-- Substring test on char lists (Python `pat in line`). -/
def infixAux (pat : List Char) : List Char → Bool
  | [] => pat.isEmpty
  | c :: rest => pat.isPrefixOf (c :: rest) || infixAux pat rest

def containsSub (pat s : String) : Bool := infixAux pat.data s.data

/-- One iteration of the `get_interfaces` loop (lines 143-151), acting on the
state (interfaces so far, current dict). -/
def ifaceStep (st : List IfaceRec × IfaceRec) (line : String) : List IfaceRec × IfaceRec :=
  if line ≠ "" ∧ ¬ pyStartsWith " " line then
    let ifs := if ifaceTruthy st.2 then st.1 ++ [st.2] else st.1
    let parts := pySplitOn ':' line
    (ifs, ⟨some (if parts.length > 1 then pyStrip (parts.getD 1 "") else ""), none⟩)
  else if containsSub "inet " line then
    let parts := pySplitWs (pyStrip line)
    (st.1, ⟨st.2.name?, some (if parts.length > 1 then parts.getD 1 "" else "")⟩)
  else st

/-- The parsing core of `IRCollector.get_interfaces` (lines 136-155), as a
function of the `ip addr show` output (note: no `strip()` before the split
here, unlike the other collectors). -/
def interfacesOfOutput (output : String) : List IfaceRec :=
  let st := (pySplitOn '\n' output).foldl ifaceStep ([], emptyIface)
  if ifaceTruthy st.2 then st.1 ++ [st.2] else st.1

def get_interfaces (h : Host) : List IfaceRec :=
  if h.platformSystem = "Linux" then
    interfacesOfOutput (run_command (h.runCmd "ip addr show"))
  else []

structure NetworkFrag where
  connections : List ConnRec
  interfaces : List IfaceRec
deriving DecidableEq

def collect_network (h : Host) : NetworkFrag :=
  ⟨collect_network_connections h, get_interfaces h⟩

/-! ### `collect_users` -/

structure UserRec where
  username : String
  uid : String
  gid : String
  home : String
  shell : String
deriving DecidableEq

/-- Decimal value of a non-empty all-digit character run; `none` on any
non-digit. -/
def digitsToNatAux (acc : Nat) : List Char → Option Nat
  | [] => some acc
  | c :: cs =>
    if c.isDigit then digitsToNatAux (acc * 10 + (c.toNat - '0'.toNat)) cs else none

/-- Model of Python `int(s)` as used on the uid field of `/etc/passwd`:
optional surrounding whitespace, optional sign, then decimal digits; `none`
models the `ValueError` raised on anything else. -/
def pyInt (s : String) : Option Int :=
  match (pyStrip s).data with
  | [] => none
  | '-' :: ds =>
    match ds with
    | [] => none
    | _ => (digitsToNatAux 0 ds).map fun n => -(n : Int)
  | '+' :: ds =>
    match ds with
    | [] => none
    | _ => (digitsToNatAux 0 ds).map fun n => (n : Int)
  | ds => (digitsToNatAux 0 ds).map fun n => (n : Int)

def mkUserRec (parts : List String) : UserRec :=
  ⟨parts.getD 0 "", parts.getD 2 "", parts.getD 3 "", parts.getD 5 "", parts.getD 6 ""⟩

/-- The `/etc/passwd` loop of `collect_users` (lines 165-179).  A line with
fewer than 7 colon-separated fields is skipped; a line with ≥7 fields whose
uid field `int()`-parse fails raises `ValueError`, which the enclosing
`except: pass` (line 180) catches OUTSIDE the loop — so parsing stops and
every later line is dropped, while entries appended earlier survive. -/
def parsePasswd : List String → List UserRec
  | [] => []
  | line :: rest =>
    let parts := pySplitOn ':' (pyStrip line)
    if parts.length ≥ 7 then
      match pyInt (parts.getD 2 "") with
      | none => []
      | some uid =>
        if uid ≥ 1000 ∨ uid = 0 then mkUserRec parts :: parsePasswd rest
        else parsePasswd rest
    else parsePasswd rest

structure UsersFrag where
  accounts : List UserRec
  logged_in : List String
deriving DecidableEq

/-- `IRCollector.collect_users` (lines 157-190). -/
def collect_users (h : Host) : UsersFrag :=
  let accounts :=
    if h.platformSystem = "Linux" then
      match h.readFileLines "/etc/passwd" with
      | .error _ => []
      | .ok lines => parsePasswd lines
    else []
  { accounts := accounts
    logged_in :=
      if h.platformSystem = "Linux" then
        pyLines (run_command (h.runCmd "who"))
      else [] }

/-! ### `collect_scheduled_tasks` and `collect_autostart` -/

/-- A heterogeneous tagged dict as appended by the scheduled-task and
autostart collectors: a `type` tag plus either a `content` string or a
`files` name list. -/
inductive TaggedEntry where
  | content (ty : String) (body : String)
  | files (ty : String) (names : List String)
deriving DecidableEq

def cronDirs : List String := ["/etc/cron.d", "/etc/cron.daily", "/etc/cron.hourly"]

/-- The cron-directory loop of `collect_scheduled_tasks` (lines 210-213):
`os.path.exists` guards absence, but `os.listdir` is NOT wrapped in any
`try/except`, so a listing error (e.g. `PermissionError` on an existing but
unreadable directory) propagates out of the collector. -/
def cronDirEntries (h : Host) (acc : List TaggedEntry) : List String → Except Unit (List TaggedEntry)
  | [] => .ok acc
  | d :: rest =>
    if h.pathExists d then
      match h.listDir d with
      | .error e => .error e
      | .ok fs => cronDirEntries h (acc ++ [.files d fs]) rest
    else cronDirEntries h acc rest

/-- Captured output of `cat /etc/crontab` (line 200). -/
def sysCrontabOut (h : Host) : String := run_command (h.runCmd "cat /etc/crontab 2>/dev/null")

/-- Captured output of `crontab -l` (line 205). -/
def userCrontabOut (h : Host) : String := run_command (h.runCmd "crontab -l 2>/dev/null")

/-- Captured output of `systemctl list-timers ... | head -20` (line 216). -/
def timersOut (h : Host) : String :=
  run_command (h.runCmd "systemctl list-timers --no-pager 2>/dev/null | head -20")

/-- The system-crontab entry appended when the captured output is truthy
(lines 201-202); the content is truncated Python-side to 1000 chars. -/
def sysTasksOpt (h : Host) : List TaggedEntry :=
  if sysCrontabOut h ≠ "" then [.content "system_crontab" (pyStrTake 1000 (sysCrontabOut h))]
  else []

/-- The user-crontab entry (lines 206-207). -/
def userTasksOpt (h : Host) : List TaggedEntry :=
  if userCrontabOut h ≠ "" then [.content "user_crontab" (pyStrTake 1000 (userCrontabOut h))]
  else []

/-- The systemd-timers entry (lines 217-218); stored verbatim, with no
Python-side cap. -/
def timersOpt (h : Host) : List TaggedEntry :=
  if timersOut h ≠ "" then [.content "systemd_timers" (timersOut h)] else []

/-- `IRCollector.collect_scheduled_tasks` (lines 192-220). -/
def collect_scheduled_tasks (h : Host) : Except Unit (List TaggedEntry) :=
  if h.platformSystem = "Linux" then
    match cronDirEntries h (sysTasksOpt h ++ userTasksOpt h) cronDirs with
    | .error e => .error e
    | .ok tasks => .ok (tasks ++ timersOpt h)
  else .ok []

/-- The literal enabled-services command (shell-side `head -50`; the Python
side stores the captured output verbatim, with no length cap of its own). -/
def svcCmd : String :=
  "systemctl list-unit-files --type=service --state=enabled --no-pager 2>/dev/null | head -50"

/-- Captured output of the enabled-services command (line 230); stored
verbatim — the only 50-line bound is the shell-side `head -50`. -/
def servicesOut (h : Host) : String := run_command (h.runCmd svcCmd)

/-- Captured output of `cat /etc/rc.local` (line 239). -/
def rcLocalOut (h : Host) : String := run_command (h.runCmd "cat /etc/rc.local 2>/dev/null")

/-- The enabled-services entry (lines 231-232). -/
def svcOpt (h : Host) : List TaggedEntry :=
  if servicesOut h ≠ "" then [.content "systemd_enabled" (servicesOut h)] else []

/-- The rc.local entry (lines 240-241); content truncated to 500 chars. -/
def rcOpt (h : Host) : List TaggedEntry :=
  if rcLocalOut h ≠ "" then [.content "rc.local" (pyStrTake 500 (rcLocalOut h))] else []

/-- `IRCollector.collect_autostart` (lines 222-243).  As with the cron
directories, `os.listdir('/etc/init.d')` (line 236) is unguarded. -/
def collect_autostart (h : Host) : Except Unit (List TaggedEntry) :=
  if h.platformSystem = "Linux" then
    if h.pathExists "/etc/init.d" then
      match h.listDir "/etc/init.d" with
      | .error e => .error e
      | .ok fs => .ok (svcOpt h ++ [.files "initd" fs] ++ rcOpt h)
    else .ok (svcOpt h ++ rcOpt h)
  else .ok []

/-! ### `collect_recent_files` -/

structure RecentRec where
  path : String
  mtime : String
  size : Int
deriving DecidableEq

/-- `IRCollector.collect_recent_files` (lines 245-267): parse the `find`
output (shell-side `head -100`), `os.stat` each path inside `try/except`
(a vanished or unreadable file is silently dropped), then store
`recent[:50]`. -/
def collect_recent_files (h : Host) : List RecentRec :=
  let recent :=
    if h.platformSystem = "Linux" then
      (pyLines (run_command
          (h.runCmd "find /home /tmp /var/log -mtime -1 -type f 2>/dev/null | head -100"))).filterMap
        fun line =>
          if line ≠ "" then
            match h.statFile line with
            | .error _ => none
            | .ok st => some ⟨line, st.mtimeIso, st.size⟩
          else none
    else []
  recent.take 50

/-! ### `collect_logs` -/

def logFiles : List String :=
  ["/var/log/auth.log", "/var/log/syslog", "/var/log/secure", "/var/log/messages"]

def tailCmd (f : String) : String := "tail -50 " ++ f ++ " 2>/dev/null"

/-- The captured output of `tail -50 <f>` on this host. -/
def tailOut (h : Host) (f : String) : String := run_command (h.runCmd (tailCmd f))

/-- The log loop of `collect_logs` (lines 283-288): a path is entered into
the dict only if it exists AND the captured tail output is non-empty
(`if output:`). -/
def logsAssemble (h : Host) (fs : List String) : List (String × String) :=
  fs.filterMap fun f =>
    if h.pathExists f then
      let output := tailOut h f
      if output ≠ "" then some (f, output) else none
    else none

/-- `IRCollector.collect_logs` (lines 269-290). -/
def collect_logs (h : Host) : List (String × String) :=
  if h.platformSystem = "Linux" then logsAssemble h logFiles else []

/-! ### JSON values, the `self.data` dict, and the pipeline -/

inductive JValue where
  | str (s : String)
  | num (n : Int)
  | arr (xs : List JValue)
  | obj (fields : List (String × JValue))

/-- Python dict assignment `d[k] = v`: update in place if the key exists,
otherwise append (insertion order preserved). -/
def dictInsert (d : List (String × JValue)) (k : String) (v : JValue) :
    List (String × JValue) :=
  if d.any fun p => p.1 == k then
    d.map fun p => if p.1 == k then (k, v) else p
  else d ++ [(k, v)]

def dictKeys (d : List (String × JValue)) : List String := d.map fun p => p.1

/-- First-match association lookup (Python dict access, keys unique). -/
def alookup {α : Type} (k : String) : List (String × α) → Option α
  | [] => none
  | (k', v) :: rest => if k' == k then some v else alookup k rest

def sysInfoJ (info : List (String × String)) : JValue :=
  .obj (info.map fun p => (p.1, .str p.2))

def processJ (p : ProcessRec) : JValue :=
  .obj [("user", .str p.user), ("pid", .str p.pid), ("cpu", .str p.cpu),
        ("mem", .str p.mem), ("command", .str p.command)]

def processesJ (ps : List ProcessRec) : JValue := .arr (ps.map processJ)

def connJ (c : ConnRec) : JValue :=
  .obj [("proto", .str c.proto), ("local", .str c.localAddr),
        ("remote", .str c.remoteAddr), ("state", .str c.state)]

/-- The interface dict carries only the keys that were assigned. -/
def ifaceJ (r : IfaceRec) : JValue :=
  .obj ((match r.name? with | some n => [("name", JValue.str n)] | none => []) ++
        (match r.ipv4? with | some i => [("ipv4", JValue.str i)] | none => []))

def networkJ (n : NetworkFrag) : JValue :=
  .obj [("connections", .arr (n.connections.map connJ)),
        ("interfaces", .arr (n.interfaces.map ifaceJ))]

def userJ (u : UserRec) : JValue :=
  .obj [("username", .str u.username), ("uid", .str u.uid), ("gid", .str u.gid),
        ("home", .str u.home), ("shell", .str u.shell)]

def usersJ (u : UsersFrag) : JValue :=
  .obj [("accounts", .arr (u.accounts.map userJ)),
        ("logged_in", .arr (u.logged_in.map JValue.str))]

def taskJ : TaggedEntry → JValue
  | .content ty c => .obj [("type", .str ty), ("content", .str c)]
  | .files ty fs => .obj [("type", .str ty), ("files", .arr (fs.map JValue.str))]

def tasksJ (ts : List TaggedEntry) : JValue := .arr (ts.map taskJ)

def recentJ (rs : List RecentRec) : JValue :=
  .arr (rs.map fun r =>
    .obj [("path", .str r.path), ("mtime", .str r.mtime), ("size", .num r.size)])

def logsJ (ls : List (String × String)) : JValue :=
  .obj (ls.map fun p => (p.1, JValue.str p.2))

/-- The `self.data` dict as initialised by `IRCollector.__init__`
(lines 44-48). -/
def initData (h : Host) : List (String × JValue) :=
  [("collection_time", .str h.nowIso), ("hostname", .str h.hostname),
   ("platform", .str h.platformSystem)]

/-- `IRCollector.run_collection` (lines 303-325): the 8 collectors in their
fixed order, each inserting its fragment under its category key.  An
uncaught exception in `collect_scheduled_tasks` or `collect_autostart`
aborts the run before `save_results`. -/
def run_collection (h : Host) : Except Unit (List (String × JValue)) :=
  let d0 := initData h
  let d1 := dictInsert d0 "system_info" (sysInfoJ (collect_system_info h))
  let d2 := dictInsert d1 "processes" (processesJ (collect_processes h))
  let d3 := dictInsert d2 "network" (networkJ (collect_network h))
  let d4 := dictInsert d3 "users" (usersJ (collect_users h))
  match collect_scheduled_tasks h with
  | .error e => .error e
  | .ok tasks =>
    let d5 := dictInsert d4 "scheduled_tasks" (tasksJ tasks)
    match collect_autostart h with
    | .error e => .error e
    | .ok auto =>
      let d6 := dictInsert d5 "autostart" (tasksJ auto)
      let d7 := dictInsert d6 "recent_files" (recentJ (collect_recent_files h))
      let d8 := dictInsert d7 "logs" (logsJ (collect_logs h))
      .ok d8

/-! ### `save_results`: the JSON writer (`json.dump(..., indent=2, default=str)`) -/

def jsonEscapeChar (c : Char) : String :=
  if c = '"' then "\\\"" else if c = '\\' then "\\\\"
  else if c = '\n' then "\\n" else if c = '\t' then "\\t"
  else if c = '\r' then "\\r" else String.mk [c]

def jsonStr (s : String) : String :=
  "\"" ++ String.join (s.data.map jsonEscapeChar) ++ "\""

def jsonPad (lvl : Nat) : String := String.mk (List.replicate (2 * lvl) ' ')

mutual

/-- Serialization of a JSON value at nesting level `lvl`, matching the shape
of `json.dump` with `indent=2`. -/
def jsonDumpV (lvl : Nat) : JValue → String
  | .str s => jsonStr s
  | .num n => toString n
  | .arr [] => "[]"
  | .arr (x :: xs) => "[\n" ++ jsonItems (lvl + 1) x xs ++ "\n" ++ jsonPad lvl ++ "]"
  | .obj [] => "\x7b\x7d"
  | .obj ((k, v) :: fs) => "\x7b\n" ++ jsonFields (lvl + 1) k v fs ++ "\n" ++ jsonPad lvl ++ "\x7d"
termination_by v => sizeOf v

def jsonItems (lvl : Nat) (x : JValue) : List JValue → String
  | [] => jsonPad lvl ++ jsonDumpV lvl x
  | y :: ys => jsonPad lvl ++ jsonDumpV lvl x ++ ",\n" ++ jsonItems lvl y ys
termination_by l => sizeOf x + sizeOf l

def jsonFields (lvl : Nat) (k : String) (v : JValue) : List (String × JValue) → String
  | [] => jsonPad lvl ++ jsonStr k ++ ": " ++ jsonDumpV lvl v
  | (k', v') :: gs =>
    jsonPad lvl ++ jsonStr k ++ ": " ++ jsonDumpV lvl v ++ ",\n" ++ jsonFields lvl k' v' gs
termination_by l => sizeOf v + sizeOf l

end

/-- `IRCollector.save_results` (lines 292-301): the filename embeds the
second-granularity timestamp; the content is the serialized `self.data`.
Returns (filename, file content). -/
def save_results (data : List (String × JValue)) (timestamp : String) : String × String :=
  ("ir_collection_" ++ timestamp ++ ".json", jsonDumpV 0 (JValue.obj data))

/-! ### Concrete hosts for witnesses and counterexamples -/

/-- A Linux host on which every command completes with empty output, no path
exists, and every file operation fails: the most degraded state the spec
contemplates. -/
def defaultHost : Host where
  platformSystem := "Linux"
  platformRelease := "6.1.0"
  platformVersion := "#1 SMP"
  machine := "x86_64"
  processor := "x86_64"
  hostname := "host-a"
  pythonVersion := "3.11.2"
  nowIso := "2026-01-02T03:04:05"
  runCmd := fun _ => .completed 0 ""
  pathExists := fun _ => false
  listDir := fun _ => .error ()
  readFileLines := fun _ => .error ()
  statFile := fun _ => .error ()

/-! ## Claim C1 — `run_command` failure behavior -/

/-- C1 counterexample: `subprocess.run` is invoked without `check=True`, so a
command that exits with a non-zero status still hands its captured stdout to
`run_command`, which returns it — the returned text on non-zero exit is NOT
empty whenever the command wrote to stdout. -/
theorem run_command_nonzero_exit_cex :
    run_command (CmdOutcome.completed 1 "oops") = "oops" ∧ ("oops" : String) ≠ "" :=
  ⟨rfl, by decide⟩

/-- C1 (amended): `run_command` returns empty text on timeout and on any
execution error (the bare `except:` path), and returns the captured stdout on
every completed command regardless of exit status — so a non-zero exit yields
empty text only when the command produced no stdout. -/
theorem run_command_amended :
    run_command CmdOutcome.timedOut = "" ∧ run_command CmdOutcome.execError = "" ∧
    ∀ (code : Nat) (out : String), run_command (CmdOutcome.completed code out) = out :=
  ⟨rfl, rfl, fun _ _ => rfl⟩

/-! ## Claim C2 — collectors never raise -/

/-- A Linux host on which `/etc/cron.d` exists but listing it raises
(e.g. `PermissionError` on an existing, unreadable directory). -/
def hostCronUnreadable : Host :=
  { defaultHost with pathExists := fun p => p == "/etc/cron.d" }

/-- C2: `collect_scheduled_tasks` calls `os.listdir(cron_dir)` with no
`try/except` (src/ir_collect.py lines 210-213), so on a host where
`/etc/cron.d` exists but cannot be listed the exception propagates out of the
collector and aborts the whole run before any artifact is written —
contradicting the never-raise contract. -/
theorem collect_scheduled_tasks_raises :
    collect_scheduled_tasks hostCronUnreadable = Except.error () ∧
    run_collection hostCronUnreadable = Except.error () :=
  ⟨rfl, rfl⟩

/-! ## Claim C9 — serialization determinism -/

/-- C9: for a fixed `self.data` value, the serialized JSON content written by
`save_results` is identical across runs — only the timestamped filename
varies, and distinct timestamps give distinct filenames. -/
theorem save_results_deterministic (data : List (String × JValue)) (t1 t2 : String) :
    (save_results data t1).2 = (save_results data t2).2 ∧
    (t1 ≠ t2 → (save_results data t1).1 ≠ (save_results data t2).1) := by
  refine ⟨rfl, fun hne heq => hne ?_⟩
  have hd := congrArg String.data heq
  simp only [String.data_append] at hd
  have h1 := List.append_cancel_right hd
  have h2 := List.append_cancel_left h1
  ext1
  exact h2

/-- C9 witness: two concrete timestamps, same snapshot. -/
theorem save_results_deterministic_w :
    (save_results [] "20240101_000000").2 = (save_results [] "20240102_000000").2 ∧
    (save_results [] "20240101_000000").1 ≠ (save_results [] "20240102_000000").1 :=
  ⟨(save_results_deterministic [] "20240101_000000" "20240102_000000").1,
   (save_results_deterministic [] "20240101_000000" "20240102_000000").2 (by decide)⟩

/-! ## Claim C3 — the completed snapshot has exactly the 11 top-level keys -/

/-- The durable artifact schema: 3 metadata keys plus the 8 category keys,
in insertion order. -/
def snapshotKeys : List String :=
  ["collection_time", "hostname", "platform", "system_info", "processes", "network",
   "users", "scheduled_tasks", "autostart", "recent_files", "logs"]

/-- The insertion chain `run_collection` performs, with the fragment values
abstracted. -/
def fullChain (h : Host) (a b c d e f g i : JValue) : List (String × JValue) :=
  dictInsert (dictInsert (dictInsert (dictInsert (dictInsert (dictInsert (dictInsert
    (dictInsert (initData h) "system_info" a) "processes" b) "network" c) "users" d)
    "scheduled_tasks" e) "autostart" f) "recent_files" g) "logs" i

theorem run_collection_eq (h : Host) (tasks auto : List TaggedEntry)
    (hst : collect_scheduled_tasks h = Except.ok tasks)
    (hau : collect_autostart h = Except.ok auto) :
    run_collection h = Except.ok (fullChain h
      (sysInfoJ (collect_system_info h)) (processesJ (collect_processes h))
      (networkJ (collect_network h)) (usersJ (collect_users h))
      (tasksJ tasks) (tasksJ auto)
      (recentJ (collect_recent_files h)) (logsJ (collect_logs h))) := by
  simp only [run_collection, hst, hau, fullChain]

/-- All eight inserted category keys are fresh, so the chain is a plain
append onto the metadata dict. -/
theorem fullChain_eq (h : Host) (a b c d e f g i : JValue) :
    fullChain h a b c d e f g i =
      initData h ++ [("system_info", a), ("processes", b), ("network", c), ("users", d),
        ("scheduled_tasks", e), ("autostart", f), ("recent_files", g), ("logs", i)] := by
  simp [fullChain, dictInsert, initData]

theorem fullChain_keys (h : Host) (a b c d e f g i : JValue) :
    dictKeys (fullChain h a b c d e f g i) = snapshotKeys := by
  rw [fullChain_eq]
  rfl

/-- C3: whenever the pipeline completes, the resulting data dict carries
exactly the metadata keys and the 8 fragment category keys, whatever the host
returned for every command and file read. -/
theorem run_collection_keys (h : Host) (d : List (String × JValue))
    (hrun : run_collection h = Except.ok d) : dictKeys d = snapshotKeys := by
  cases hst : collect_scheduled_tasks h with
  | error e =>
    simp only [run_collection, hst] at hrun
    exact absurd hrun (by simp)
  | ok tasks =>
    cases hau : collect_autostart h with
    | error e =>
      simp only [run_collection, hst, hau] at hrun
      exact absurd hrun (by simp)
    | ok auto =>
      rw [run_collection_eq h tasks auto hst hau, Except.ok.injEq] at hrun
      subst hrun
      exact fullChain_keys h _ _ _ _ _ _ _ _

/-- The data dict produced by a full run on the degraded default host (both
fallible collectors return the empty fragment there). -/
def okData : List (String × JValue) :=
  fullChain defaultHost (sysInfoJ (collect_system_info defaultHost))
    (processesJ (collect_processes defaultHost)) (networkJ (collect_network defaultHost))
    (usersJ (collect_users defaultHost)) (tasksJ []) (tasksJ [])
    (recentJ (collect_recent_files defaultHost)) (logsJ (collect_logs defaultHost))

theorem run_collection_defaultHost : run_collection defaultHost = Except.ok okData :=
  run_collection_eq defaultHost [] [] rfl rfl

/-- C3 witness: a concrete completing run, with the keys evaluated. -/
theorem run_collection_keys_w :
    run_collection defaultHost = Except.ok okData ∧ dictKeys okData = snapshotKeys :=
  ⟨run_collection_defaultHost,
   run_collection_keys defaultHost okData run_collection_defaultHost⟩

/-! ## Claim C8 — frame property of the collector sequence -/

/-- C8: in a completed run each top-level key of the final dict holds exactly
what its own producer wrote: the three metadata fields hold their
initialization-time values, and each category key holds its own collector's
fragment — no later collector disturbs an earlier insertion, and
`save_results` takes the dict as a value without modifying it. -/
theorem run_collection_frame (h : Host) (d : List (String × JValue))
    (hrun : run_collection h = Except.ok d) :
    alookup "collection_time" d = some (JValue.str h.nowIso) ∧
    alookup "hostname" d = some (JValue.str h.hostname) ∧
    alookup "platform" d = some (JValue.str h.platformSystem) ∧
    alookup "system_info" d = some (sysInfoJ (collect_system_info h)) ∧
    alookup "processes" d = some (processesJ (collect_processes h)) ∧
    alookup "network" d = some (networkJ (collect_network h)) ∧
    alookup "users" d = some (usersJ (collect_users h)) ∧
    (∀ tasks, collect_scheduled_tasks h = Except.ok tasks →
      alookup "scheduled_tasks" d = some (tasksJ tasks)) ∧
    (∀ auto, collect_autostart h = Except.ok auto →
      alookup "autostart" d = some (tasksJ auto)) ∧
    alookup "recent_files" d = some (recentJ (collect_recent_files h)) ∧
    alookup "logs" d = some (logsJ (collect_logs h)) := by
  cases hst : collect_scheduled_tasks h with
  | error e =>
    simp only [run_collection, hst] at hrun
    exact absurd hrun (by simp)
  | ok tasks =>
    cases hau : collect_autostart h with
    | error e =>
      simp only [run_collection, hst, hau] at hrun
      exact absurd hrun (by simp)
    | ok auto =>
      rw [run_collection_eq h tasks auto hst hau, Except.ok.injEq] at hrun
      subst hrun
      rw [fullChain_eq]
      refine ⟨rfl, rfl, rfl, rfl, rfl, rfl, rfl, ?_, ?_, rfl, rfl⟩
      · intro tasks' hts
        simp only [Except.ok.injEq] at hts
        subst hts
        rfl
      · intro auto' hau'
        simp only [Except.ok.injEq] at hau'
        subst hau'
        rfl

/-- C8 witness: on the concrete degraded host, the metadata and an earlier
fragment key are intact in the final dict. -/
theorem run_collection_frame_w :
    alookup "hostname" okData = some (JValue.str "host-a") ∧
    alookup "processes" okData = some (processesJ (collect_processes defaultHost)) := by
  have hfr := run_collection_frame defaultHost okData run_collection_defaultHost
  exact ⟨hfr.2.1, hfr.2.2.2.2.1⟩

/-! ## Claim C10 — interface records without a `name` key -/

/-- The record that will end up first in the output: the head of the
accumulated list, or the pending `current` dict if none was flushed yet. -/
def firstRec (st : List IfaceRec × IfaceRec) : IfaceRec := st.1.headD st.2

/-- Invariant of the `get_interfaces` loop state: the eventual first record
has no `name` key and has an `ipv4` key. -/
def headNameless (st : List IfaceRec × IfaceRec) : Prop :=
  (firstRec st).name? = none ∧ (firstRec st).ipv4?.isSome = true

theorem ifaceStep_header (ifs : List IfaceRec) (cur : IfaceRec) (line : String)
    (h1 : line ≠ "" ∧ ¬ pyStartsWith " " line) :
    ifaceStep (ifs, cur) line =
      ((if ifaceTruthy cur then ifs ++ [cur] else ifs),
       ⟨some (if (pySplitOn ':' line).length > 1 then pyStrip ((pySplitOn ':' line).getD 1 "")
              else ""), none⟩) := by
  simp only [ifaceStep, if_pos h1]

theorem ifaceStep_inet (ifs : List IfaceRec) (cur : IfaceRec) (line : String)
    (h1 : ¬ (line ≠ "" ∧ ¬ pyStartsWith " " line))
    (h2 : containsSub "inet " line = true) :
    ifaceStep (ifs, cur) line =
      (ifs, ⟨cur.name?,
        some (if (pySplitWs (pyStrip line)).length > 1
              then (pySplitWs (pyStrip line)).getD 1 "" else "")⟩) := by
  simp only [ifaceStep, if_neg h1, if_pos h2]

theorem ifaceStep_skip (ifs : List IfaceRec) (cur : IfaceRec) (line : String)
    (h1 : ¬ (line ≠ "" ∧ ¬ pyStartsWith " " line))
    (h2 : ¬ containsSub "inet " line = true) :
    ifaceStep (ifs, cur) line = (ifs, cur) := by
  simp only [ifaceStep, if_neg h1, if_neg h2]

theorem ifaceStep_headNameless (st : List IfaceRec × IfaceRec) (line : String)
    (h : headNameless st) : headNameless (ifaceStep st line) := by
  obtain ⟨ifs, cur⟩ := st
  by_cases h1 : line ≠ "" ∧ ¬ pyStartsWith " " line
  · rw [ifaceStep_header ifs cur line h1]
    cases ifs with
    | nil =>
      obtain ⟨hn, hi⟩ := h
      simp only [firstRec, List.headD_nil] at hn hi
      have htr : ifaceTruthy cur = true := by simp [ifaceTruthy, hi]
      simp only [htr, if_true, headNameless, firstRec, List.nil_append, List.headD_cons]
      exact ⟨hn, hi⟩
    | cons r t =>
      obtain ⟨hn, hi⟩ := h
      simp only [firstRec, List.headD_cons] at hn hi
      by_cases htr : ifaceTruthy cur = true
      · simp only [htr, if_true, headNameless, firstRec, List.cons_append, List.headD_cons]
        exact ⟨hn, hi⟩
      · simp only [eq_false_of_ne_true htr, if_false, headNameless, firstRec, List.headD_cons]
        exact ⟨hn, hi⟩
  · by_cases h2 : containsSub "inet " line = true
    · rw [ifaceStep_inet ifs cur line h1 h2]
      cases ifs with
      | nil =>
        obtain ⟨hn, hi⟩ := h
        simp only [firstRec, List.headD_nil] at hn hi
        exact ⟨by simpa [firstRec] using hn, by simp [firstRec]⟩
      | cons r t =>
        obtain ⟨hn, hi⟩ := h
        simp only [firstRec, List.headD_cons] at hn hi
        exact ⟨by simpa [firstRec] using hn, by simpa [firstRec] using hi⟩
    · rw [ifaceStep_skip ifs cur line h1 h2]
      exact h

theorem foldl_headNameless (lines : List String) (st : List IfaceRec × IfaceRec)
    (h : headNameless st) : headNameless (lines.foldl ifaceStep st) := by
  induction lines generalizing st with
  | nil => exact h
  | cons l ls ih => exact ih _ (ifaceStep_headNameless st l h)

/-- C10: if the address-configuration output opens with an indented line
containing `inet ` (so no interface header has been seen yet), the first
emitted interface record has an `ipv4` key but no `name` key — the parser
does not guarantee the mandatory `name` field. -/
theorem get_interfaces_nameless_first (output l0 : String) (rest : List String)
    (hsplit : pySplitOn '\n' output = l0 :: rest)
    (hind : pyStartsWith " " l0 = true)
    (hinet : containsSub "inet " l0 = true) :
    ∃ r rs, interfacesOfOutput output = r :: rs ∧ r.name? = none ∧ r.ipv4?.isSome = true := by
  have h0 : headNameless (ifaceStep ([], emptyIface) l0) := by
    unfold ifaceStep
    have hne : ¬ (l0 ≠ "" ∧ ¬ pyStartsWith " " l0) := by simp [hind]
    rw [if_neg hne, if_pos hinet]
    exact ⟨rfl, rfl⟩
  have hf := foldl_headNameless rest _ h0
  obtain ⟨ifs, cur, hfold⟩ :
      ∃ a b, rest.foldl ifaceStep (ifaceStep ([], emptyIface) l0) = (a, b) :=
    ⟨_, _, rfl⟩
  rw [hfold] at hf
  simp only [interfacesOfOutput, hsplit, List.foldl_cons, hfold]
  cases ifs with
  | nil =>
    obtain ⟨hn, hi⟩ := hf
    simp only [firstRec, List.headD_nil] at hn hi
    have htr : ifaceTruthy cur = true := by simp [ifaceTruthy, hi]
    exact ⟨cur, [], by simp [htr], hn, hi⟩
  | cons r t =>
    obtain ⟨hn, hi⟩ := hf
    simp only [firstRec, List.headD_cons] at hn hi
    by_cases htr : ifaceTruthy cur = true
    · exact ⟨r, t ++ [cur], by simp [htr], hn, hi⟩
    · exact ⟨r, t, by simp [eq_false_of_ne_true htr], hn, hi⟩

/-- C10 witness: concrete output starting with an indented `inet` line. -/
theorem get_interfaces_nameless_first_w :
    ((interfacesOfOutput "    inet 10.0.0.5/24 brd").head?.map fun r => (r.name?, r.ipv4?.isSome))
      = some (none, true) := by
  obtain ⟨r, rs, he, hn, hi⟩ := get_interfaces_nameless_first
    "    inet 10.0.0.5/24 brd" "    inet 10.0.0.5/24 brd" []
    (by decide) (by decide) (by decide)
  rw [he]
  simp [hn, hi]

/-! ## Claim C5 — the uid filter of `collect_users` -/

/-- Spec-side description of the Users selection (for the refinement
comparison): keep exactly the well-formed entries (≥7 fields, integer uid)
whose uid is ≥ 1000 or 0, as a per-line filter that is insensitive to the
surrounding lines. -/
def specUserKeep (line : String) : Option UserRec :=
  let parts := pySplitOn ':' (pyStrip line)
  if parts.length ≥ 7 then
    match pyInt (parts.getD 2 "") with
    | none => none
    | some uid => if uid ≥ 1000 ∨ uid = 0 then some (mkUserRec parts) else none
  else none

def passwdCex : List String :=
  ["root:x:0:0:root:/root:/bin/bash",
   "bad:x:zz:0:b:/:/bin/sh",
   "alice:x:1000:1000::/home/alice:/bin/bash"]

/-- A Linux host whose `/etc/passwd` contains a non-numeric uid entry
followed by a regular uid-1000 user. -/
def hostBadPasswd : Host :=
  { defaultHost with
    readFileLines := fun p => if p == "/etc/passwd" then .ok passwdCex else .error () }

/-- C5 counterexample: `alice` is a well-formed uid-1000 entry of the account
database, yet the accounts list does not contain her — the `int()` call on
the malformed `bad` line raises and the surrounding `except` abandons the
rest of the file, so the output is NOT the claimed set for every database
content. -/
theorem users_filter_cex :
    (collect_users hostBadPasswd).accounts = [⟨"root", "0", "0", "/root", "/bin/bash"⟩] ∧
    specUserKeep "alice:x:1000:1000::/home/alice:/bin/bash" =
      some ⟨"alice", "1000", "1000", "/home/alice", "/bin/bash"⟩ ∧
    (⟨"alice", "1000", "1000", "/home/alice", "/bin/bash"⟩ : UserRec) ∉
      (collect_users hostBadPasswd).accounts := by
  refine ⟨by decide, by decide, by decide⟩

/-- C5 (amended): on any account database all of whose ≥7-field lines carry
an integer-parseable uid, the accounts list is exactly the per-line filter
keeping uid ≥ 1000 entries and uid-0 entries; and unconditionally, every
entry that does appear has uid ≥ 1000 or uid = 0 — no entry with
1 ≤ uid < 1000 ever appears. -/
theorem users_filter_amended :
    (∀ lines : List String,
      (∀ line ∈ lines, (pySplitOn ':' (pyStrip line)).length ≥ 7 →
          (pyInt ((pySplitOn ':' (pyStrip line)).getD 2 "")).isSome = true) →
      parsePasswd lines = lines.filterMap specUserKeep) ∧
    (∀ (lines : List String) (u : UserRec), u ∈ parsePasswd lines →
      ∃ n : Int, pyInt u.uid = some n ∧ (1000 ≤ n ∨ n = 0)) := by
  constructor
  · intro lines hwf
    induction lines with
    | nil => rfl
    | cons line rest ih =>
      have hrest : ∀ l ∈ rest, (pySplitOn ':' (pyStrip l)).length ≥ 7 →
          (pyInt ((pySplitOn ':' (pyStrip l)).getD 2 "")).isSome = true :=
        fun l hl => hwf l (List.mem_cons_of_mem _ hl)
      simp only [parsePasswd, specUserKeep, List.filterMap_cons]
      by_cases h7 : (pySplitOn ':' (pyStrip line)).length ≥ 7
      · rw [if_pos h7, if_pos h7]
        have hsome := hwf line (List.mem_cons_self _ _) h7
        cases hpy : pyInt ((pySplitOn ':' (pyStrip line)).getD 2 "") with
        | none => rw [hpy] at hsome; cases hsome
        | some uid =>
          simp only []
          by_cases hcond : uid ≥ 1000 ∨ uid = 0
          · rw [if_pos hcond, if_pos hcond]
            simp [ih hrest]
          · rw [if_neg hcond, if_neg hcond]
            simp [ih hrest]
      · rw [if_neg h7, if_neg h7]
        simp [ih hrest]
  · intro lines
    induction lines with
    | nil => intro u hu; cases hu
    | cons line rest ih =>
      intro u hu
      simp only [parsePasswd] at hu
      by_cases h7 : (pySplitOn ':' (pyStrip line)).length ≥ 7
      · rw [if_pos h7] at hu
        cases hpy : pyInt ((pySplitOn ':' (pyStrip line)).getD 2 "") with
        | none => rw [hpy] at hu; cases hu
        | some uid =>
          rw [hpy] at hu
          simp only [] at hu
          by_cases hcond : uid ≥ 1000 ∨ uid = 0
          · rw [if_pos hcond] at hu
            rcases List.mem_cons.1 hu with heq | hmem
            · subst heq
              refine ⟨uid, hpy, ?_⟩
              rcases hcond with hc | hc
              · exact Or.inl hc
              · exact Or.inr hc
            · exact ih u hmem
          · rw [if_neg hcond] at hu
            exact ih u hu
      · rw [if_neg h7] at hu
        exact ih u hu

def passwdGood : List String :=
  ["root:x:0:0:root:/root:/bin/bash",
   "daemon:x:1:1::/usr/sbin:/usr/sbin/nologin",
   "alice:x:1000:1000::/home/alice:/bin/bash"]

/-- C5 witness: on a fully well-formed database the parser agrees with the
spec-side filter. -/
theorem users_filter_amended_w :
    parsePasswd passwdGood = passwdGood.filterMap specUserKeep :=
  users_filter_amended.1 passwdGood (by decide)

/-! ## Claim C6 — malformed lines are skipped and parsing continues -/

def passwdAbort : List String :=
  ["bad:x:zz:0:b:/:/bin/sh", "alice:x:1000:1000::/home/alice:/bin/bash"]

/-- C6 counterexample: the `alice` line parses on its own, but placed after a
line whose uid field fails to parse it is dropped — the parser does not
continue past that malformed line, contrary to the claim. -/
theorem skip_malformed_cex :
    parsePasswd passwdAbort = [] ∧
    parsePasswd ["alice:x:1000:1000::/home/alice:/bin/bash"] =
      [⟨"alice", "1000", "1000", "/home/alice", "/bin/bash"⟩] := by
  refine ⟨by decide, by decide⟩

/-- C6 (amended): a line with the wrong column count is skipped and parsing
continues with the following lines — in the process parser always, and in
the account parser too; but an account line with enough columns whose uid
field fails `int()` parsing stops the account parser: earlier entries are
kept and every later line is dropped. -/
theorem skip_malformed_amended :
    (∀ (l1 l2 : List String) (bad : String), parseProcLine bad = none →
        (l1 ++ bad :: l2).filterMap parseProcLine =
          l1.filterMap parseProcLine ++ l2.filterMap parseProcLine) ∧
    (∀ (bad : String) (rest : List String), (pySplitOn ':' (pyStrip bad)).length < 7 →
        parsePasswd (bad :: rest) = parsePasswd rest) ∧
    (∀ (l1 l2 : List String) (bad : String), (pySplitOn ':' (pyStrip bad)).length ≥ 7 →
        pyInt ((pySplitOn ':' (pyStrip bad)).getD 2 "") = none →
        parsePasswd (l1 ++ bad :: l2) = parsePasswd l1) := by
  refine ⟨?_, ?_, ?_⟩
  · intro l1 l2 bad hbad
    rw [List.filterMap_append]
    simp [List.filterMap_cons, hbad]
  · intro bad rest hlen
    simp only [parsePasswd]
    rw [if_neg (by omega)]
  · intro l1 l2 bad hlen hpy
    induction l1 with
    | nil =>
      simp only [List.nil_append, parsePasswd]
      rw [if_pos hlen, hpy]
    | cons x xs ih =>
      simp only [List.cons_append, parsePasswd]
      by_cases h7 : (pySplitOn ':' (pyStrip x)).length ≥ 7
      · rw [if_pos h7, if_pos h7]
        cases hpx : pyInt ((pySplitOn ':' (pyStrip x)).getD 2 "") with
        | none => rfl
        | some uid =>
          simp only []
          by_cases hcond : uid ≥ 1000 ∨ uid = 0
          · rw [if_pos hcond, if_pos hcond, List.append_eq, ih]
          · rw [if_neg hcond, if_neg hcond, List.append_eq, ih]
      · rw [if_neg h7, if_neg h7]
        exact ih

/-- C6 witness: a concrete short line is skipped with parsing continuing. -/
theorem skip_malformed_amended_w :
    parsePasswd ["a:b", "root:x:0:0:r:/root:/bin/sh"] =
      parsePasswd ["root:x:0:0:r:/root:/bin/sh"] :=
  skip_malformed_amended.2.1 "a:b" ["root:x:0:0:r:/root:/bin/sh"] (by decide)

/-! ## Claim C7 — the Logs fragment -/

theorem alookup_logsAssemble_of_mem (h : Host) (fs : List String) (f : String)
    (hf : f ∈ fs) (hex : h.pathExists f = true) (hne : tailOut h f ≠ "") :
    alookup f (logsAssemble h fs) = some (tailOut h f) := by
  induction fs with
  | nil => cases hf
  | cons g rest ih =>
    by_cases hgf : g = f
    · subst hgf
      simp only [logsAssemble, List.filterMap_cons, hex, if_true]
      rw [if_pos hne]
      simp [alookup]
    · have hf' : f ∈ rest := by
        rcases List.mem_cons.1 hf with h1 | h1
        · exact absurd h1.symm hgf
        · exact h1
      simp only [logsAssemble, List.filterMap_cons]
      by_cases hexg : h.pathExists g = true
      · simp only [hexg, if_true]
        by_cases hneg : tailOut h g ≠ ""
        · rw [if_pos hneg]
          simp only [alookup, beq_iff_eq, hgf, if_false]
          exact ih hf'
        · rw [if_neg hneg]
          exact ih hf'
      · simp only [eq_false_of_ne_true hexg, if_false]
        exact ih hf'

theorem alookup_logsAssemble_of_not_exists (h : Host) (fs : List String) (f : String)
    (hex : h.pathExists f = false) :
    alookup f (logsAssemble h fs) = none := by
  induction fs with
  | nil => rfl
  | cons g rest ih =>
    simp only [logsAssemble, List.filterMap_cons]
    by_cases hexg : h.pathExists g = true
    · simp only [hexg, if_true]
      by_cases hneg : tailOut h g ≠ ""
      · rw [if_pos hneg]
        have hgf : (g == f) = false := by
          refine beq_eq_false_iff_ne.2 fun hgf => ?_
          rw [hgf, hex] at hexg
          cases hexg
        simp only [alookup, hgf, if_false]
        exact ih
      · rw [if_neg hneg]
        exact ih
    · simp only [eq_false_of_ne_true hexg, if_false]
      exact ih

theorem mem_logsAssemble (h : Host) (fs : List String) (f v : String)
    (hm : (f, v) ∈ logsAssemble h fs) :
    f ∈ fs ∧ h.pathExists f = true ∧ v = tailOut h f ∧ v ≠ "" := by
  induction fs with
  | nil => cases hm
  | cons g rest ih =>
    simp only [logsAssemble, List.filterMap_cons] at hm
    by_cases hexg : h.pathExists g = true
    · simp only [hexg, if_true] at hm
      by_cases hneg : tailOut h g ≠ ""
      · rw [if_pos hneg] at hm
        rcases List.mem_cons.1 hm with heq | hmem
        · injection heq with hf hv
          subst hf
          subst hv
          exact ⟨List.mem_cons_self _ _, hexg, rfl, hneg⟩
        · obtain ⟨h1, h2, h3, h4⟩ := ih hmem
          exact ⟨List.mem_cons_of_mem _ h1, h2, h3, h4⟩
      · rw [if_neg hneg] at hm
        obtain ⟨h1, h2, h3, h4⟩ := ih hm
        exact ⟨List.mem_cons_of_mem _ h1, h2, h3, h4⟩
    · simp only [eq_false_of_ne_true hexg, if_false] at hm
      obtain ⟨h1, h2, h3, h4⟩ := ih hm
      exact ⟨List.mem_cons_of_mem _ h1, h2, h3, h4⟩

/-- A Linux host where `/var/log/auth.log` exists but the captured
`tail -50` output is empty (empty or unreadable file). -/
def hostEmptyAuth : Host :=
  { defaultHost with pathExists := fun p => p == "/var/log/auth.log" }

/-- C7 counterexample: the path exists on the host, yet the Logs fragment
has no key at all — an existing log whose captured text is empty is omitted
(`if output:`), so existing paths are not always mapped. -/
theorem collect_logs_cex :
    hostEmptyAuth.pathExists "/var/log/auth.log" = true ∧
    collect_logs hostEmptyAuth = [] := by
  refine ⟨by decide, by decide⟩

/-- C7 (amended): on the supported platform, the Logs fragment maps each
fixed well-known path that exists AND whose captured last-50-lines text is
non-empty to exactly that text; a path that does not exist yields no key;
and every entry of the fragment is such a path with its captured text —
existing paths with empty captured text are omitted as well. -/
theorem collect_logs_amended (h : Host) (hlin : h.platformSystem = "Linux") :
    (∀ f ∈ logFiles, h.pathExists f = true → tailOut h f ≠ "" →
        alookup f (collect_logs h) = some (tailOut h f)) ∧
    (∀ f : String, h.pathExists f = false → alookup f (collect_logs h) = none) ∧
    (∀ f v : String, (f, v) ∈ collect_logs h →
        f ∈ logFiles ∧ h.pathExists f = true ∧ v = tailOut h f ∧ v ≠ "") := by
  have hcl : collect_logs h = logsAssemble h logFiles := by
    simp [collect_logs, hlin]
  rw [hcl]
  exact ⟨fun f hf hex hne => alookup_logsAssemble_of_mem h logFiles f hf hex hne,
         fun f hex => alookup_logsAssemble_of_not_exists h logFiles f hex,
         fun f v hm => mem_logsAssemble h logFiles f v hm⟩

/-- A Linux host where `/var/log/auth.log` exists with two captured lines. -/
def hostAuthLines : Host :=
  { defaultHost with
    pathExists := fun p => p == "/var/log/auth.log"
    runCmd := fun c =>
      if c == tailCmd "/var/log/auth.log" then .completed 0 "line one\nline two"
      else .completed 0 "" }

/-- C7 witness: the existing log maps to its captured text and an absent one
has no key. -/
theorem collect_logs_amended_w :
    alookup "/var/log/auth.log" (collect_logs hostAuthLines) = some "line one\nline two" ∧
    alookup "/var/log/syslog" (collect_logs hostAuthLines) = none := by
  have ha := collect_logs_amended hostAuthLines rfl
  exact ⟨ha.1 "/var/log/auth.log" (by decide) (by decide) (by decide),
         ha.2.1 "/var/log/syslog" (by decide)⟩

/-! ## Claim C4 — truncation bounds -/

theorem mem_cronDirEntries (h : Host) (ds : List String) (acc r : List TaggedEntry)
    (hr : cronDirEntries h acc ds = Except.ok r) (e : TaggedEntry) (he : e ∈ r) :
    e ∈ acc ∨ ∃ d fs, e = TaggedEntry.files d fs := by
  induction ds generalizing acc with
  | nil =>
    simp only [cronDirEntries, Except.ok.injEq] at hr
    subst hr
    exact .inl he
  | cons d rest ih =>
    simp only [cronDirEntries] at hr
    split_ifs at hr with hex
    · cases hl : h.listDir d with
      | error e' => simp [hl] at hr
      | ok fs =>
        simp only [hl] at hr
        rcases ih _ hr with hm | hfiles
        · rcases List.mem_append.1 hm with h1 | h2
          · exact .inl h1
          · simp only [List.mem_singleton] at h2
            exact .inr ⟨d, fs, h2⟩
        · exact .inr hfiles
    · exact ih _ hr

theorem scheduled_content_char (h : Host) (tasks : List TaggedEntry)
    (hok : collect_scheduled_tasks h = Except.ok tasks) (ty c : String)
    (hm : TaggedEntry.content ty c ∈ tasks) :
    (ty = "system_crontab" ∧ c = pyStrTake 1000 (sysCrontabOut h)) ∨
    (ty = "user_crontab" ∧ c = pyStrTake 1000 (userCrontabOut h)) ∨
    (ty = "systemd_timers" ∧ c = timersOut h) := by
  by_cases hlin : h.platformSystem = "Linux"
  · simp only [collect_scheduled_tasks, if_pos hlin] at hok
    cases hcd : cronDirEntries h (sysTasksOpt h ++ userTasksOpt h) cronDirs with
    | error e => simp [hcd] at hok
    | ok ts =>
      simp only [hcd, Except.ok.injEq] at hok
      subst hok
      rcases List.mem_append.1 hm with hm1 | hm2
      · rcases mem_cronDirEntries h cronDirs _ ts hcd _ hm1 with hacc | ⟨d, fs, heq⟩
        · rcases List.mem_append.1 hacc with ha | hb
          · left
            unfold sysTasksOpt at ha
            split_ifs at ha with hc
            · simp only [List.mem_singleton, TaggedEntry.content.injEq] at ha
              exact ha
            · cases ha
          · right; left
            unfold userTasksOpt at hb
            split_ifs at hb with hc
            · simp only [List.mem_singleton, TaggedEntry.content.injEq] at hb
              exact hb
            · cases hb
        · exact absurd heq (by simp)
      · right; right
        unfold timersOpt at hm2
        split_ifs at hm2 with hc
        · simp only [List.mem_singleton, TaggedEntry.content.injEq] at hm2
          exact hm2
        · cases hm2
  · simp only [collect_scheduled_tasks, if_neg hlin, Except.ok.injEq] at hok
    subst hok
    cases hm

theorem autostart_content_char (h : Host) (auto : List TaggedEntry)
    (hok : collect_autostart h = Except.ok auto) (ty c : String)
    (hm : TaggedEntry.content ty c ∈ auto) :
    (ty = "systemd_enabled" ∧ c = servicesOut h) ∨
    (ty = "rc.local" ∧ c = pyStrTake 500 (rcLocalOut h)) := by
  have hsvc : ∀ e ∈ svcOpt h ++ rcOpt h,
      e = TaggedEntry.content ty c →
      (ty = "systemd_enabled" ∧ c = servicesOut h) ∨
      (ty = "rc.local" ∧ c = pyStrTake 500 (rcLocalOut h)) := by
    intro e hme heq
    subst heq
    rcases List.mem_append.1 hme with ha | hb
    · left
      unfold svcOpt at ha
      split_ifs at ha with hc
      · simp only [List.mem_singleton, TaggedEntry.content.injEq] at ha
        exact ha
      · cases ha
    · right
      unfold rcOpt at hb
      split_ifs at hb with hc
      · simp only [List.mem_singleton, TaggedEntry.content.injEq] at hb
        exact hb
      · cases hb
  by_cases hlin : h.platformSystem = "Linux"
  · simp only [collect_autostart, if_pos hlin] at hok
    by_cases hinit : h.pathExists "/etc/init.d" = true
    · rw [if_pos hinit] at hok
      cases hld : h.listDir "/etc/init.d" with
      | error e => simp [hld] at hok
      | ok fs =>
        simp only [hld, Except.ok.injEq] at hok
        subst hok
        rcases List.mem_append.1 hm with hm1 | hm2
        · rcases List.mem_append.1 hm1 with ha | hb
          · exact hsvc _ (List.mem_append_left _ ha) rfl
          · simp only [List.mem_singleton] at hb
            exact absurd hb (by simp)
        · exact hsvc _ (List.mem_append_right _ hm2) rfl
    · rw [if_neg hinit, Except.ok.injEq] at hok
      subst hok
      exact hsvc _ hm rfl
  · simp only [collect_autostart, if_neg hlin, Except.ok.injEq] at hok
    subst hok
    cases hm

theorem collect_processes_length (h : Host) : (collect_processes h).length ≤ 100 := by
  simp only [collect_processes]
  exact List.length_take_le _ _

theorem collect_processes_command (h : Host) (p : ProcessRec)
    (hp : p ∈ collect_processes h) : p.command.length ≤ 100 := by
  simp only [collect_processes] at hp
  have hp' := List.mem_of_mem_take hp
  split_ifs at hp' with hlin
  · obtain ⟨line, _, hline⟩ := List.mem_filterMap.1 hp'
    simp only [parseProcLine] at hline
    split_ifs at hline with h1 h2
    injection hline with hrec
    subst hrec
    exact pyStrTake_length 100 _
  · cases hp'

theorem collect_recent_files_length (h : Host) : (collect_recent_files h).length ≤ 50 := by
  simp only [collect_recent_files]
  exact List.length_take_le _ _

theorem collect_network_connections_length (h : Host)
    (hlen : (pyLines (run_command (h.runCmd ssCmd))).length ≤ 101) :
    (collect_network h).connections.length ≤ 100 := by
  show (collect_network_connections h).length ≤ 100
  unfold collect_network_connections
  split_ifs with hlin
  · have h1 : (((pyLines (run_command (h.runCmd ssCmd))).drop 1).filterMap parseConnLine).length
        ≤ ((pyLines (run_command (h.runCmd ssCmd))).drop 1).length :=
      List.length_filterMap_le _ _
    have h2 : ((pyLines (run_command (h.runCmd ssCmd))).drop 1).length
        = (pyLines (run_command (h.runCmd ssCmd))).length - 1 := List.length_drop 1 _
    omega
  · simp

/-- C4 (amended): the Python-side caps hold for every input — processes list
≤ 100 entries each with command ≤ 100 chars, recent files ≤ 50, crontab
contents ≤ 1000 chars, rc.local content ≤ 500 chars.  The two shell-delegated
bounds are weaker: the connection list is ≤ 100 only when the captured `ss`
output itself has at most 101 lines (what the `head -100` pipeline produces),
and the enabled-services content is stored verbatim, bounded only by what
`head -50` returned — the Python code caps neither. -/
theorem truncation_bounds_amended (h : Host) :
    (collect_processes h).length ≤ 100 ∧
    (∀ p ∈ collect_processes h, p.command.length ≤ 100) ∧
    (collect_recent_files h).length ≤ 50 ∧
    (∀ tasks, collect_scheduled_tasks h = Except.ok tasks →
      ∀ c : String,
        (TaggedEntry.content "system_crontab" c ∈ tasks → c.length ≤ 1000) ∧
        (TaggedEntry.content "user_crontab" c ∈ tasks → c.length ≤ 1000)) ∧
    (∀ auto, collect_autostart h = Except.ok auto →
      ∀ c : String,
        (TaggedEntry.content "rc.local" c ∈ auto → c.length ≤ 500) ∧
        (TaggedEntry.content "systemd_enabled" c ∈ auto → c = servicesOut h)) ∧
    ((pyLines (run_command (h.runCmd ssCmd))).length ≤ 101 →
      (collect_network h).connections.length ≤ 100) := by
  refine ⟨collect_processes_length h, collect_processes_command h,
          collect_recent_files_length h, ?_, ?_, collect_network_connections_length h⟩
  · intro tasks hok c
    constructor
    · intro hm
      rcases scheduled_content_char h tasks hok _ _ hm with ⟨_, hc⟩ | ⟨hty, _⟩ | ⟨hty, _⟩
      · subst hc
        exact pyStrTake_length 1000 _
      · exact absurd hty (by decide)
      · exact absurd hty (by decide)
    · intro hm
      rcases scheduled_content_char h tasks hok _ _ hm with ⟨hty, _⟩ | ⟨_, hc⟩ | ⟨hty, _⟩
      · exact absurd hty (by decide)
      · subst hc
        exact pyStrTake_length 1000 _
      · exact absurd hty (by decide)
  · intro auto hok c
    constructor
    · intro hm
      rcases autostart_content_char h auto hok _ _ hm with ⟨hty, _⟩ | ⟨_, hc⟩
      · exact absurd hty (by decide)
      · subst hc
        exact pyStrTake_length 500 _
    · intro hm
      rcases autostart_content_char h auto hok _ _ hm with ⟨_, hc⟩ | ⟨hty, _⟩
      · exact hc
      · exact absurd hty (by decide)

/-- Join lines with newlines (to build adversarial command output). -/
def joinLines : List String → String
  | [] => ""
  | [s] => s
  | s :: t :: rest => s ++ "\n" ++ joinLines (t :: rest)

/-- 102 parseable `ss` lines: after dropping the header, 101 connections. -/
def ssFlood : String := joinLines (List.replicate 102 "a b c d e")

/-- A host whose `ss` pipeline output is adversarially long (e.g. `head`
unavailable in the shell pipeline or output injected upstream). -/
def hostSsFlood : Host :=
  { defaultHost with
    runCmd := fun c => if c == ssCmd then .completed 0 ssFlood else .completed 0 "" }

set_option maxRecDepth 100000 in
/-- C4 counterexample: the Python side never caps the connection list — its
only bound is the `head -100` inside the shell command string — so with 102
lines of captured output the Network fragment holds 101 connection records,
exceeding the claimed bound of 100. -/
theorem truncation_bounds_cex :
    (collect_network hostSsFlood).connections.length = 101 ∧
    ¬ ((collect_network hostSsFlood).connections.length ≤ 100) := by
  refine ⟨by decide, by decide⟩

/-- C4 witness: the amended bounds at a concrete host. -/
theorem truncation_bounds_amended_w :
    (collect_processes defaultHost).length ≤ 100 ∧
    (collect_network defaultHost).connections.length ≤ 100 :=
  ⟨(truncation_bounds_amended defaultHost).1,
   (truncation_bounds_amended defaultHost).2.2.2.2.2 (by decide)⟩

end IRCollect

